import Mathlib

/-!
Verification of the book-catalog web application's API layer.

The development embeds the request handlers of `src/app/api/books/route.ts`
(`GET`, `POST`) and `src/app/api/books/tags/route.ts` (`GET`), the tag-splitting
logic of the create form (`src/app/books/create/page.tsx`), and the delete flow
of the collection view (`src/app/page.tsx`).  JavaScript strings are modelled as
Lean `String`s, with the string operations the code relies on written out over
`List Char` so that they compute.  The Prisma client (`src/lib/prisma.ts`) and
the `/api/books/[id]` route are part of the repository but not among the given
sources; their behaviour is modelled from the specification, and every such
definition is marked in its doc comment.
-/

/-- A persisted Book record, after `src/types/book.ts`.  The `Date` timestamps
are abstracted to `Nat`; they play no role in any verified property. -/
structure Book where
  id : String
  title : String
  author : String
  tags : List String
  coverImage : Option String
  createdAt : Nat
  updatedAt : Nat
deriving DecidableEq, Repr

/-- JavaScript `x || d` applied to an optional string: `null`/`undefined` and
the empty string are falsy and fall back to the default. -/
def jsOr (o : Option String) (d : String) : String :=
  match o with
  | none => d
  | some s => if s = "" then d else s

/-- JavaScript truthiness of an optional string field: missing, `null` and `""`
are falsy, every other string is truthy. -/
def jsTruthy (o : Option String) : Bool :=
  match o with
  | none => false
  | some s => decide (s ≠ "")

/-- JavaScript `x || null` applied to an optional string field (used for
`coverImage`): falsy values are normalised to `null`. -/
def jsStrOrNull (o : Option String) : Option String :=
  match o with
  | none => none
  | some s => if s = "" then none else some s

/-- Lower-case a character sequence, character by character. -/
def lowerL (l : List Char) : List Char :=
  l.map Char.toLower

/-- Lexicographic comparison of character sequences: `charListLe a b` is true
iff `a` is less than or equal to `b` in the usual dictionary order on
code points. -/
def charListLe : List Char → List Char → Bool
  | [], _ => true
  | _ :: _, [] => false
  | c :: cs, d :: ds => if c = d then charListLe cs ds else decide (c < d)

/-- Lexicographic comparison of strings, via their character data. -/
def strLe (a b : String) : Bool :=
  charListLe a.data b.data

/-- Contiguous-substring test on character sequences: `hasSub needle hay` is
true iff `needle` occurs contiguously inside `hay`. -/
def hasSub (needle : List Char) : List Char → Bool
  | [] => needle.isEmpty
  | c :: cs => needle.isPrefixOf (c :: cs) || hasSub needle cs

/-- Modelled from the spec: the external store's evaluation of a Prisma
`contains` filter with `mode: "insensitive"` — the query engine itself is not
among the given sources.  Per the spec ("title contains the search text,
case-insensitive"), it is a case-insensitive substring test. -/
def containsCI (hay needle : String) : Bool :=
  hasSub (lowerL needle.data) (lowerL hay.data)

/-- Split a character sequence at every occurrence of the separator character,
as JavaScript `String.prototype.split` does with a one-character separator. -/
def splitOnChar (sep : Char) : List Char → List (List Char)
  | [] => [[]]
  | c :: cs =>
    match splitOnChar sep cs with
    | [] => [[]]
    | r :: rs => if c = sep then [] :: r :: rs else (c :: r) :: rs

/-- Strip leading and trailing whitespace, as JavaScript
`String.prototype.trim` does. -/
def trimL (l : List Char) : List Char :=
  ((l.dropWhile Char.isWhitespace).reverse.dropWhile Char.isWhitespace).reverse

/-- The where-clause the list endpoint builds: an optional case-insensitive
title filter and an optional tag-membership filter
(`src/app/api/books/route.ts`, `GET`). -/
structure BookWhere where
  titleContainsCI : Option String
  tagHas : Option String

/-- Build the where-clause exactly as the `GET` handler does: a field is added
only when the corresponding (already defaulted) parameter is non-empty. -/
def buildWhere (search tag : String) : BookWhere :=
  { titleContainsCI := if search = "" then none else some search
    tagHas := if tag = "" then none else some tag }

/-- Whether a Book satisfies a where-clause: an absent field imposes no
condition. -/
def matchesWhere (w : BookWhere) (b : Book) : Bool :=
  (match w.titleContainsCI with
   | none => true
   | some s => containsCI b.title s) &&
  (match w.tagHas with
   | none => true
   | some t => b.tags.contains t)

/-- The comparison the list endpoint requests from the store:
by title, ascending or descending. -/
def titleLe (desc : Bool) (a b : Book) : Bool :=
  if desc then strLe b.title a.title else strLe a.title b.title

/-- Modelled from the spec: `prisma.book.findMany` with a where-clause and an
`orderBy` on title — `src/lib/prisma.ts` and the query engine are not among
the given sources.  Per the spec it returns all matching records "ordered by
title per standard lexicographic comparison, stable for equal titles", which a
stable merge sort of the filtered collection realises. -/
def prismaFindMany (store : List Book) (w : BookWhere) (desc : Bool) : List Book :=
  (store.filter (matchesWhere w)).mergeSort (titleLe desc)

/-- The pure query behind `GET /api/books`: filter by the built where-clause,
then order by title in the requested direction. -/
def booksQuery (store : List Book) (search tag : String) (desc : Bool) : List Book :=
  prismaFindMany store (buildWhere search tag) desc

/-- An HTTP response as produced by the route handlers: either a success with a
status code and a JSON payload, or a failure with a status code and a JSON
body of the shape `error: message`. -/
inductive ApiResult (α : Type) where
  | ok (status : Nat) (payload : α)
  | fail (status : Nat) (error : String)
deriving DecidableEq, Repr

/-- The request body of `POST /api/books` (and of the modelled `PUT`):
each field may be missing or `null`, which `none` represents. -/
structure PostBody where
  title : Option String
  author : Option String
  tags : Option (List String)
  coverImage : Option String
deriving DecidableEq, Repr

/-- The record `prisma.book.create` persists for an accepted `POST` body:
the given title and author, `tags || []`, `coverImage || null`, and
server-assigned id and timestamps. -/
def mkBook (newId : String) (now : Nat) (body : PostBody) : Book :=
  { id := newId
    title := body.title.getD ""
    author := body.author.getD ""
    tags := body.tags.getD []
    coverImage := jsStrOrNull body.coverImage
    createdAt := now
    updatedAt := now }

namespace BooksRoute

/-- The `GET` handler of `src/app/api/books/route.ts`: default the three query
parameters with `|| ""` resp. `|| "asc"`, build the where-clause, and run
`findMany` ordered by title, descending exactly when the sort parameter equals
`"desc"`.  `storeOk` models whether the store call succeeds; when it throws,
the handler answers 500 with a generic error body. -/
def GET (storeOk : Bool) (store : List Book) (search tag sort : Option String) :
    ApiResult (List Book) :=
  if storeOk then
    .ok 200 (booksQuery store (jsOr search "") (jsOr tag "")
      (jsOr sort "asc" == "desc"))
  else
    .fail 500 "Failed to fetch books"

/-- The `POST` handler of `src/app/api/books/route.ts`: reject with 400 when
`title` or `author` is falsy, otherwise persist a new record (tags defaulted
to `[]`, coverImage normalised with `|| null`) and answer 201 with it; a store
failure yields 500.  The second component is the store after the request. -/
def POST (storeOk : Bool) (store : List Book) (newId : String) (now : Nat)
    (body : PostBody) : ApiResult Book × List Book :=
  if jsTruthy body.title && jsTruthy body.author then
    if storeOk then
      (.ok 201 (mkBook newId now body), store ++ [mkBook newId now body])
    else
      (.fail 500 "Failed to create book", store)
  else
    (.fail 400 "Title and author are required", store)

end BooksRoute

/-- First-occurrence de-duplication of a list of strings, the semantics of the
JavaScript `new Set(allTags)` spread in the tags route. -/
def dedupKeepFirst : List String → List String
  | [] => []
  | t :: ts => t :: (dedupKeepFirst ts).filter (fun s => decide (s ≠ t))

/-- The tag index computed by `src/app/api/books/tags/route.ts`: all tags of
all Books, de-duplicated via a `Set`, then sorted (JavaScript default sort,
i.e. lexicographic string order). -/
def tagIndex (store : List Book) : List String :=
  (dedupKeepFirst (store.flatMap Book.tags)).mergeSort strLe

namespace TagsRoute

/-- The `GET` handler of `src/app/api/books/tags/route.ts`: read every Book's
tags, flatten, de-duplicate and sort; a store failure yields 500 with a
generic error body. -/
def GET (storeOk : Bool) (store : List Book) : ApiResult (List String) :=
  if storeOk then
    .ok 200 (tagIndex store)
  else
    .fail 500 "Failed to fetch tags"

end TagsRoute

/-- Modelled from the spec: the effect on the store of a delete of the record
with the given id — the `/api/books/[id]` route is part of the repository but
not among the given sources.  Per the spec, the Book is destroyed and all
other records are untouched. -/
def deleteBook (store : List Book) (targetId : String) : List Book :=
  store.filter (fun b => decide (b.id ≠ targetId))

/-- Modelled from the spec: the record a full-replace update writes —
per the spec the edit flow is a "full replace of title/author/tags/coverImage,
updatedAt refreshed". -/
def replaceBook (now : Nat) (body : PostBody) (b : Book) : Book :=
  { b with
    title := body.title.getD ""
    author := body.author.getD ""
    tags := body.tags.getD []
    coverImage := jsStrOrNull body.coverImage
    updatedAt := now }

namespace BookIdRoute

/-- Modelled from the spec: the `DELETE /api/books/[id]` handler — the route
file is part of the repository but not among the given sources.  Per the spec
it answers 200 on success, removing the record, and a store failure surfaces
as a 500 error body. -/
def DELETE (storeOk : Bool) (store : List Book) (targetId : String) :
    ApiResult Unit × List Book :=
  if storeOk then
    (.ok 200 (), deleteBook store targetId)
  else
    (.fail 500 "Failed to delete book", store)

/-- Modelled from the spec: the `PUT /api/books/[id]` handler — the route file
is part of the repository but not among the given sources.  Per the spec it
takes the same body shape as `POST` and answers with the updated Book, or
400/404 on failure; validation mirrors the `POST` handler's required-field
check. -/
def PUT (storeOk : Bool) (store : List Book) (targetId : String) (now : Nat)
    (body : PostBody) : ApiResult Book × List Book :=
  if jsTruthy body.title && jsTruthy body.author then
    if storeOk then
      match store.find? (fun b => b.id == targetId) with
      | none => (.fail 404 "Book not found", store)
      | some old =>
        (.ok 200 (replaceBook now body old),
         store.map (fun b => if b.id == targetId then replaceBook now body b else b))
    else
      (.fail 500 "Failed to update book", store)
  else
    (.fail 400 "Title and author are required", store)

end BookIdRoute

namespace CreatePage

/-- The tags the create form submits (`src/app/books/create/page.tsx`,
`handleSubmit`): split the input on commas, trim each piece, and drop the
empty ones. -/
def submittedTags (input : String) : List String :=
  (((splitOnChar ',' input.data).map (fun l => String.mk (trimL l))).filter
    (fun t => decide (t.length > 0)))

end CreatePage

namespace HomePage

/-- The success path of `confirmDelete` in `src/app/page.tsx`: call the delete
endpoint for the chosen Book, then refetch the book list with the current
search/tag/sort state, then refetch the tag index.  The result is the new
store together with the two refetched payloads shown to the user. -/
def confirmDelete (store : List Book) (b : Book) (search tag sort : Option String) :
    List Book × List Book × List String :=
  let store' := (BookIdRoute.DELETE true store b.id).2
  (store',
   booksQuery store' (jsOr search "") (jsOr tag "") (jsOr sort "asc" == "desc"),
   tagIndex store')

end HomePage

/-- The server-side reachable store states: starting from the empty store,
each step is the store component of a `POST`, a modelled `PUT`, or a modelled
`DELETE`, with any request body and any store availability. -/
inductive Reachable : List Book → Prop where
  | init : Reachable []
  | createStep (ok : Bool) (s : List Book) (newId : String) (now : Nat)
      (body : PostBody) : Reachable s → Reachable (BooksRoute.POST ok s newId now body).2
  | updateStep (ok : Bool) (s : List Book) (targetId : String) (now : Nat)
      (body : PostBody) : Reachable s → Reachable (BookIdRoute.PUT ok s targetId now body).2
  | deleteStep (ok : Bool) (s : List Book) (targetId : String) :
      Reachable s → Reachable (BookIdRoute.DELETE ok s targetId).2

/-- A well-formed create request used as concrete test data. -/
def sampleBody : PostBody :=
  { title := some "Dune", author := some "Frank Herbert", tags := some ["sf"],
    coverImage := none }

/-- A create request with an empty title, used as concrete test data. -/
def emptyTitleBody : PostBody :=
  { title := some "", author := some "Anon", tags := none, coverImage := none }

/-- A create request whose title is a single space: truthy in JavaScript, yet
blank after trimming.  Used as concrete test data. -/
def blankTitleBody : PostBody :=
  { title := some " ", author := some "Anon", tags := none, coverImage := none }

/-- A create request with missing tags and an empty-string cover image, used as
concrete test data for the defaulting behaviour. -/
def defaultsBody : PostBody :=
  { title := some "T", author := some "A", tags := none, coverImage := some "" }

/-- The create request produced by submitting the form with tags input
`"a, b, b"`, used as concrete test data for the round trip. -/
def roundTripBody : PostBody :=
  { title := some "T", author := some "A",
    tags := some (CreatePage.submittedTags "a, b, b"), coverImage := none }

/-- A concrete Book used as test data. -/
def bkX : Book :=
  { id := "x1", title := "Alpha", author := "A", tags := ["shared"],
    coverImage := none, createdAt := 0, updatedAt := 0 }

/-- A concrete Book with a tag nothing else uses, used as test data. -/
def bkY : Book :=
  { id := "y1", title := "Beta", author := "B", tags := ["shared", "only-y"],
    coverImage := none, createdAt := 0, updatedAt := 0 }

/-! Helper lemmas about the string order and the sorting model. -/

theorem charListLe_refl : ∀ l : List Char, charListLe l l = true
  | [] => rfl
  | c :: cs => by simp [charListLe, charListLe_refl cs]

theorem charListLe_total : ∀ a b : List Char, (charListLe a b || charListLe b a) = true
  | [], _ => by simp [charListLe]
  | _ :: _, [] => by simp [charListLe]
  | c :: cs, d :: ds => by
    by_cases h : c = d
    · subst h
      simpa [charListLe] using charListLe_total cs ds
    · have hne : d ≠ c := fun e => h e.symm
      rcases lt_or_gt_of_ne h with hlt | hgt
      · simp [charListLe, h, hne, hlt]
      · simp [charListLe, h, hne, hgt]

theorem charListLe_trans : ∀ a b c : List Char,
    charListLe a b = true → charListLe b c = true → charListLe a c = true
  | [], _, _, _, _ => rfl
  | _ :: _, [], _, h, _ => by simp [charListLe] at h
  | _ :: _, _ :: _, [], _, h => by simp [charListLe] at h
  | x :: xs, y :: ys, z :: zs, h1, h2 => by
    simp only [charListLe] at h1 h2 ⊢
    by_cases hxy : x = y
    · by_cases hyz : y = z
      · rw [if_pos hxy] at h1
        rw [if_pos hyz] at h2
        rw [if_pos (hxy.trans hyz)]
        exact charListLe_trans xs ys zs h1 h2
      · rw [if_neg hyz] at h2
        have hlt : y < z := of_decide_eq_true h2
        have hxz : x < z := lt_of_eq_of_lt hxy hlt
        rw [if_neg (ne_of_lt hxz)]
        exact decide_eq_true hxz
    · rw [if_neg hxy] at h1
      have hlt1 : x < y := of_decide_eq_true h1
      by_cases hyz : y = z
      · have hxz : x < z := lt_of_lt_of_eq hlt1 hyz
        rw [if_neg (ne_of_lt hxz)]
        exact decide_eq_true hxz
      · rw [if_neg hyz] at h2
        have hlt2 : y < z := of_decide_eq_true h2
        have hxz : x < z := lt_trans hlt1 hlt2
        rw [if_neg (ne_of_lt hxz)]
        exact decide_eq_true hxz

theorem strLe_total (a b : String) : (strLe a b || strLe b a) = true :=
  charListLe_total a.data b.data

theorem strLe_trans (a b c : String) (h1 : strLe a b = true) (h2 : strLe b c = true) :
    strLe a c = true :=
  charListLe_trans a.data b.data c.data h1 h2

theorem strLe_of_eq (a b : String) (h : a = b) : strLe a b = true := by
  subst h
  exact charListLe_refl a.data

theorem titleLe_trans (desc : Bool) (a b c : Book) (h1 : titleLe desc a b = true)
    (h2 : titleLe desc b c = true) : titleLe desc a c = true := by
  cases desc
  · simp only [titleLe, if_neg] at h1 h2 ⊢
    simp only [Bool.false_eq_true, if_false] at h1 h2 ⊢
    exact strLe_trans _ _ _ h1 h2
  · simp only [titleLe, if_true] at h1 h2 ⊢
    exact strLe_trans _ _ _ h2 h1

theorem titleLe_total (desc : Bool) (a b : Book) : (titleLe desc a b || titleLe desc b a) = true := by
  cases desc
  · simp only [titleLe, Bool.false_eq_true, if_false]
    exact strLe_total _ _
  · simp only [titleLe, if_true]
    exact strLe_total _ _

theorem mergeSort_filter_eq {α : Type} (le : α → α → Bool) (p : α → Bool)
    (htrans : ∀ a b c, le a b = true → le b c = true → le a c = true)
    (htotal : ∀ a b, (le a b || le b a) = true)
    (hp : ∀ a b, p a = true → p b = true → le a b = true)
    (l : List α) : (l.mergeSort le).filter p = l.filter p := by
  have hpair : (l.filter p).Pairwise (fun a b => le a b = true) :=
    List.pairwise_of_forall_mem_list fun a ha b hb =>
      hp a b (List.mem_filter.mp ha).2 (List.mem_filter.mp hb).2
  have hsubl : (l.filter p).Sublist (l.mergeSort le) :=
    List.sublist_mergeSort htrans htotal hpair (List.filter_sublist l)
  have hself : (l.filter p).filter p = l.filter p :=
    List.filter_eq_self.mpr fun a ha => (List.mem_filter.mp ha).2
  have hsub2 : (l.filter p).Sublist ((l.mergeSort le).filter p) := by
    have h := List.Sublist.filter p hsubl
    rwa [hself] at h
  have hlen : ((l.mergeSort le).filter p).length = (l.filter p).length :=
    ((List.mergeSort_perm l le).filter p).length_eq
  exact (hsub2.eq_of_length hlen.symm).symm

theorem mem_dedupKeepFirst (x : String) : ∀ l : List String, x ∈ dedupKeepFirst l ↔ x ∈ l
  | [] => Iff.rfl
  | t :: ts => by
    simp only [dedupKeepFirst, List.mem_cons, List.mem_filter]
    constructor
    · rintro (rfl | ⟨hx, _⟩)
      · exact Or.inl rfl
      · exact Or.inr ((mem_dedupKeepFirst x ts).mp hx)
    · rintro (rfl | hx)
      · exact Or.inl rfl
      · by_cases hxt : x = t
        · exact Or.inl hxt
        · exact Or.inr ⟨(mem_dedupKeepFirst x ts).mpr hx, by simp [hxt]⟩

theorem nodup_dedupKeepFirst : ∀ l : List String, (dedupKeepFirst l).Nodup
  | [] => List.nodup_nil
  | t :: ts => by
    simp only [dedupKeepFirst, List.nodup_cons]
    constructor
    · intro hmem
      have h := (List.mem_filter.mp hmem).2
      simp at h
    · exact List.Nodup.filter _ (nodup_dedupKeepFirst ts)

theorem mem_booksQuery (store : List Book) (search tag : String) (desc : Bool) (b : Book) :
    b ∈ booksQuery store search tag desc ↔
      b ∈ store ∧ matchesWhere (buildWhere search tag) b = true := by
  simp [booksQuery, prismaFindMany, List.mem_mergeSort, List.mem_filter]

theorem matchesWhere_buildWhere (search tag : String) (b : Book) :
    matchesWhere (buildWhere search tag) b = true ↔
      (search = "" ∨ containsCI b.title search = true) ∧ (tag = "" ∨ tag ∈ b.tags) := by
  by_cases hs : search = "" <;> by_cases ht : tag = "" <;>
    simp [matchesWhere, buildWhere, hs, ht, List.contains, List.elem_iff]

theorem mem_tagIndex (store : List Book) (t : String) :
    t ∈ tagIndex store ↔ ∃ b ∈ store, t ∈ b.tags := by
  simp [tagIndex, List.mem_mergeSort, mem_dedupKeepFirst, List.mem_flatMap]

theorem nodup_tagIndex (store : List Book) : (tagIndex store).Nodup :=
  ((List.mergeSort_perm _ _).nodup_iff).mpr (nodup_dedupKeepFirst _)

theorem sorted_tagIndex (store : List Book) :
    (tagIndex store).Pairwise (fun a b => strLe a b = true) :=
  List.sorted_mergeSort strLe_trans strLe_total _

theorem jsTruthy_getD_ne (o : Option String) (h : jsTruthy o = true) : o.getD "" ≠ "" := by
  cases o with
  | none => simp [jsTruthy] at h
  | some s => simpa [jsTruthy] using h

/-- C1: for every persisted collection and every `GET /api/books` request with
optional search text and optional tag, the successful response carries the
query's result, and a Book is in that result exactly when it is in the store,
its title contains the search text case-insensitively (no such condition when
the search parameter is absent or empty), and its tag list contains the given
tag (no such condition when the tag parameter is absent or empty). -/
theorem books_list_filter_spec (store : List Book) (search tag sort : Option String)
    (b : Book) :
    BooksRoute.GET true store search tag sort
        = .ok 200 (booksQuery store (jsOr search "") (jsOr tag "")
            (jsOr sort "asc" == "desc"))
    ∧ (b ∈ booksQuery store (jsOr search "") (jsOr tag "") (jsOr sort "asc" == "desc") ↔
        b ∈ store
        ∧ (jsOr search "" = "" ∨ containsCI b.title (jsOr search "") = true)
        ∧ (jsOr tag "" = "" ∨ (jsOr tag "") ∈ b.tags)) := by
  refine ⟨rfl, ?_⟩
  rw [mem_booksQuery, matchesWhere_buildWhere]

/-- C3: a `POST /api/books` whose body has a falsy (missing, null or empty)
title or author is answered 400 with an error message and leaves the store
unchanged, whatever the store's availability; a body with both fields present
and non-empty is persisted as a new record and answered 201 with it. -/
theorem post_validation_spec (ok : Bool) (store : List Book) (newId : String)
    (now : Nat) (body : PostBody) :
    ((jsTruthy body.title && jsTruthy body.author) = false →
      BooksRoute.POST ok store newId now body
        = (.fail 400 "Title and author are required", store))
    ∧ ((jsTruthy body.title && jsTruthy body.author) = true →
      BooksRoute.POST true store newId now body
        = (.ok 201 (mkBook newId now body), store ++ [mkBook newId now body])) := by
  constructor
  · intro h
    simp [BooksRoute.POST, h]
  · intro h
    simp [BooksRoute.POST, h]

/-- C3 witness: the empty-title body is rejected with 400 and the store stays
empty, while the well-formed body is persisted and answered 201. -/
theorem post_validation_spec_witness :
    BooksRoute.POST true [] "b1" 0 emptyTitleBody
        = (.fail 400 "Title and author are required", [])
    ∧ BooksRoute.POST true [] "b1" 0 sampleBody
        = (.ok 201 (mkBook "b1" 0 sampleBody), [mkBook "b1" 0 sampleBody]) := by
  constructor
  · exact (post_validation_spec true [] "b1" 0 emptyTitleBody).1 (by decide)
  · have h := (post_validation_spec true [] "b1" 0 sampleBody).2 (by decide)
    simpa using h

/-- C5: `GET /api/books/tags` answers with the tag index of the full
collection: a string is in it exactly when it is a tag of some stored Book,
it has no duplicates (so each tag appears exactly once), and it is sorted in
lexicographic order. -/
theorem tags_endpoint_spec (store : List Book) (t : String) :
    TagsRoute.GET true store = .ok 200 (tagIndex store)
    ∧ (t ∈ tagIndex store ↔ ∃ b ∈ store, t ∈ b.tags)
    ∧ (tagIndex store).Nodup
    ∧ (tagIndex store).Pairwise (fun a b => strLe a b = true) :=
  ⟨rfl, mem_tagIndex store t, nodup_tagIndex store, sorted_tagIndex store⟩

/-- C9: any sort parameter other than the exact string `"desc"` — absent,
empty, or arbitrary — yields the same response as an explicit `"asc"`, namely
a 200 with the ascending query result; it never produces an error response. -/
theorem sort_param_fallback (store : List Book) (search tag sort : Option String)
    (h : sort ≠ some "desc") :
    BooksRoute.GET true store search tag sort
        = BooksRoute.GET true store search tag (some "asc")
    ∧ BooksRoute.GET true store search tag sort
        = .ok 200 (booksQuery store (jsOr search "") (jsOr tag "") false) := by
  have hd : (jsOr sort "asc" == "desc") = false := by
    cases sort with
    | none => decide
    | some s =>
      by_cases hs : s = ""
      · subst hs
        decide
      · have hne : s ≠ "desc" := fun e => h (by rw [e])
        simp [jsOr, hs, beq_eq_false_iff_ne.mpr hne]
  have hd2 : (jsOr (some "asc") "asc" == "desc") = false := by decide
  constructor
  · simp [BooksRoute.GET, hd, hd2]
  · simp [BooksRoute.GET, hd]

/-- C9 witness: a garbage sort value gives the same 200 response as an
explicit ascending sort on a concrete store. -/
theorem sort_param_fallback_witness :
    BooksRoute.GET true [bkX] none none (some "bogus")
        = BooksRoute.GET true [bkX] none none (some "asc")
    ∧ BooksRoute.GET true [bkX] none none (some "bogus")
        = .ok 200 (booksQuery [bkX] "" "" false) :=
  sort_param_fallback [bkX] none none (some "bogus") (by decide)

/-- C10: an accepted `POST /api/books` persists a missing or null tags field
as the empty list and a missing, null or empty-string coverImage as null; the
created Book (whose tags field is a list by construction, hence never null)
never carries an empty-string coverImage. -/
theorem post_defaults_spec (store : List Book) (newId : String) (now : Nat)
    (body : PostBody) (hv : (jsTruthy body.title && jsTruthy body.author) = true) :
    (BooksRoute.POST true store newId now body).1 = .ok 201 (mkBook newId now body)
    ∧ (body.tags = none → (mkBook newId now body).tags = [])
    ∧ (body.coverImage = none ∨ body.coverImage = some "" →
        (mkBook newId now body).coverImage = none)
    ∧ (mkBook newId now body).coverImage ≠ some "" := by
  refine ⟨by simp [BooksRoute.POST, hv], ?_, ?_, ?_⟩
  · intro h
    simp [mkBook, h]
  · rintro (h | h) <;> simp [mkBook, jsStrOrNull, h]
  · cases hc : body.coverImage with
    | none => simp [mkBook, jsStrOrNull, hc]
    | some s =>
      by_cases hs : s = "" <;> simp [mkBook, jsStrOrNull, hc, hs]

/-- C10 witness: a concrete accepted body with missing tags and an
empty-string coverImage is created with an empty tag list and a null
coverImage. -/
theorem post_defaults_spec_witness :
    (BooksRoute.POST true [] "b1" 0 defaultsBody).1 = .ok 201 (mkBook "b1" 0 defaultsBody)
    ∧ (mkBook "b1" 0 defaultsBody).tags = []
    ∧ (mkBook "b1" 0 defaultsBody).coverImage = none := by
  have h := post_defaults_spec [] "b1" 0 defaultsBody (by decide)
  exact ⟨h.1, h.2.1 rfl, h.2.2.1 (Or.inr rfl)⟩

theorem titleLe_of_title_eq (desc : Bool) (a b : Book) (h : a.title = b.title) :
    titleLe desc a b = true := by
  cases desc
  · simp only [titleLe, Bool.false_eq_true, if_false]
    exact strLe_of_eq _ _ h
  · simp only [titleLe, if_true]
    exact strLe_of_eq _ _ h.symm

theorem jsOr_sort_eq_desc (sort : Option String) (h : sort = some "desc") :
    (jsOr sort "asc" == "desc") = true := by
  subst h
  decide

theorem jsOr_sort_ne_desc (sort : Option String) (h : sort ≠ some "desc") :
    (jsOr sort "asc" == "desc") = false := by
  cases sort with
  | none => decide
  | some s =>
    by_cases hs : s = ""
    · subst hs
      decide
    · have hne : s ≠ "desc" := fun e => h (by rw [e])
      simp [jsOr, hs, beq_eq_false_iff_ne.mpr hne]

theorem booksQuery_pairwise (store : List Book) (search tag : String) (desc : Bool) :
    (booksQuery store search tag desc).Pairwise (fun a b => titleLe desc a b = true) :=
  List.sorted_mergeSort (titleLe_trans desc) (titleLe_total desc) _

theorem booksQuery_filter_title (store : List Book) (search tag : String)
    (desc : Bool) (T : String) :
    (booksQuery store search tag desc).filter (fun b => b.title == T)
      = (store.filter (matchesWhere (buildWhere search tag))).filter
          (fun b => b.title == T) := by
  apply mergeSort_filter_eq (titleLe desc) _ (titleLe_trans desc) (titleLe_total desc)
  intro a b ha hb
  have ha' : a.title = T := by simpa using ha
  have hb' : b.title = T := by simpa using hb
  exact titleLe_of_title_eq desc a b (ha'.trans hb'.symm)

/-- C2: the list returned by `GET /api/books` is ordered by title — descending
when the sort parameter is exactly `"desc"`, ascending otherwise — under
lexicographic string comparison, and the sort is stable: for any title, the
Books carrying it appear in the same order as in the underlying (filtered)
collection. -/
theorem books_list_sorted_stable (store : List Book) (search tag sort : Option String)
    (T : String) :
    ∃ bs, BooksRoute.GET true store search tag sort = .ok 200 bs
      ∧ (sort = some "desc" → bs.Pairwise (fun a b => strLe b.title a.title = true))
      ∧ (sort ≠ some "desc" → bs.Pairwise (fun a b => strLe a.title b.title = true))
      ∧ bs.filter (fun b => b.title == T)
          = (store.filter (matchesWhere (buildWhere (jsOr search "") (jsOr tag "")))).filter
              (fun b => b.title == T) := by
  refine ⟨booksQuery store (jsOr search "") (jsOr tag "") (jsOr sort "asc" == "desc"),
    rfl, ?_, ?_, booksQuery_filter_title _ _ _ _ _⟩
  · intro hdesc
    rw [jsOr_sort_eq_desc sort hdesc]
    refine (booksQuery_pairwise store _ _ true).imp ?_
    intro a b hab
    simpa [titleLe] using hab
  · intro hasc
    rw [jsOr_sort_ne_desc sort hasc]
    refine (booksQuery_pairwise store _ _ false).imp ?_
    intro a b hab
    simpa [titleLe] using hab

/-- C2 witness: on a concrete two-book store a descending request yields a 200
whose payload is sorted descending by title. -/
theorem books_list_sorted_stable_witness :
    ∃ bs, BooksRoute.GET true [bkX, bkY] none none (some "desc") = .ok 200 bs
      ∧ bs.Pairwise (fun a b => strLe b.title a.title = true) := by
  obtain ⟨bs, h1, h2, _, _⟩ :=
    books_list_sorted_stable [bkX, bkY] none none (some "desc") "Alpha"
  exact ⟨bs, h1, h2 rfl⟩

/-- C8: when the underlying store operation throws, each endpoint answers 500
with a generic error body and an unchanged store; and a response is an error
exactly when the operation fails — for the two read endpoints exactly on
store failure, for `POST` on store failure or on the validation rejection. -/
theorem endpoints_error_spec (store : List Book) (search tag sort : Option String)
    (newId : String) (now : Nat) (body : PostBody) :
    BooksRoute.GET false store search tag sort = .fail 500 "Failed to fetch books"
    ∧ TagsRoute.GET false store = .fail 500 "Failed to fetch tags"
    ∧ ((jsTruthy body.title && jsTruthy body.author) = true →
        BooksRoute.POST false store newId now body
          = (.fail 500 "Failed to create book", store))
    ∧ (∀ ok : Bool,
        (∃ e, BooksRoute.GET ok store search tag sort = ApiResult.fail 500 e) ↔ ok = false)
    ∧ (∀ ok : Bool, (∃ e, TagsRoute.GET ok store = ApiResult.fail 500 e) ↔ ok = false)
    ∧ (∀ ok : Bool,
        (∃ st e, (BooksRoute.POST ok store newId now body).1 = ApiResult.fail st e) ↔
          (ok = false ∨ (jsTruthy body.title && jsTruthy body.author) = false)) := by
  refine ⟨rfl, rfl, ?_, ?_, ?_, ?_⟩
  · intro h
    simp [BooksRoute.POST, h]
  · intro ok
    cases ok <;> simp [BooksRoute.GET]
  · intro ok
    cases ok <;> simp [TagsRoute.GET]
  · intro ok
    by_cases hv : (jsTruthy body.title && jsTruthy body.author) = true
    · cases ok <;> simp [BooksRoute.POST, hv]
    · have hv' : (jsTruthy body.title && jsTruthy body.author) = false :=
        Bool.eq_false_iff.mpr hv
      cases ok <;> simp [BooksRoute.POST, hv']

/-- C8 witness: on concrete data, a store failure makes `POST` answer 500
with the generic message and leave the store unchanged, and makes the list
endpoint answer 500 with its generic message. -/
theorem endpoints_error_spec_witness :
    BooksRoute.POST false [] "b1" 0 sampleBody
        = (.fail 500 "Failed to create book", [])
    ∧ BooksRoute.GET false [] none none none = .fail 500 "Failed to fetch books" := by
  have h := endpoints_error_spec [] none none none "b1" 0 sampleBody
  exact ⟨h.2.2.1 (by decide), h.1⟩

/-- C6: submitting the create form with tags input `"a, b, b"` produces the
tags list `["a", "b", "b"]`; the created Book is persisted and listed with
exactly those tags, without entity-level de-duplication; and the tag index of
the resulting one-book collection lists `"a"` and `"b"` once each. -/
theorem create_tags_round_trip :
    CreatePage.submittedTags "a, b, b" = ["a", "b", "b"]
    ∧ (BooksRoute.POST true [] "b1" 0 roundTripBody).1 = .ok 201 (mkBook "b1" 0 roundTripBody)
    ∧ (BooksRoute.POST true [] "b1" 0 roundTripBody).2 = [mkBook "b1" 0 roundTripBody]
    ∧ (mkBook "b1" 0 roundTripBody).tags = ["a", "b", "b"]
    ∧ BooksRoute.GET true (BooksRoute.POST true [] "b1" 0 roundTripBody).2 none none none
        = .ok 200 [mkBook "b1" 0 roundTripBody]
    ∧ tagIndex (BooksRoute.POST true [] "b1" 0 roundTripBody).2 = ["a", "b"] := by
  have hstore : (BooksRoute.POST true [] "b1" 0 roundTripBody).2
      = [mkBook "b1" 0 roundTripBody] := by decide
  refine ⟨by decide, by decide, hstore, by decide, ?_, ?_⟩
  · rw [hstore]
    have hq : [mkBook "b1" 0 roundTripBody].filter
        (matchesWhere (buildWhere "" "")) = [mkBook "b1" 0 roundTripBody] := by decide
    simp [BooksRoute.GET, booksQuery, prismaFindMany, jsOr, hq]
  · rw [hstore]
    have h1 : dedupKeepFirst ([mkBook "b1" 0 roundTripBody].flatMap Book.tags)
        = ["a", "b"] := by decide
    have h2 : (["a", "b"] : List String).mergeSort strLe = ["a", "b"] :=
      List.mergeSort_of_sorted (by decide)
    rw [tagIndex, h1, h2]

/-- C7: the collection view's delete flow removes the Book and refetches both
the list and the tag index over the shrunken store; the deleted Book is absent
from every subsequent list result, and every tag used only by the deleted Book
is absent from the subsequent tag index. -/
theorem delete_removes_book_and_orphan_tags (store : List Book) (b : Book)
    (search tag sort : Option String) (t : String) (hb : b ∈ store) :
    HomePage.confirmDelete store b search tag sort
      = (deleteBook store b.id,
         booksQuery (deleteBook store b.id) (jsOr search "") (jsOr tag "")
           (jsOr sort "asc" == "desc"),
         tagIndex (deleteBook store b.id))
    ∧ b ∉ booksQuery (deleteBook store b.id) (jsOr search "") (jsOr tag "")
        (jsOr sort "asc" == "desc")
    ∧ (t ∈ b.tags → (∀ c ∈ store, t ∈ c.tags → c = b) →
        t ∉ tagIndex (deleteBook store b.id)) := by
  refine ⟨rfl, ?_, ?_⟩
  · intro hmem
    have h2 := (mem_booksQuery _ _ _ _ _).mp hmem
    have h3 := (List.mem_filter.mp h2.1).2
    simp at h3
  · intro ht honly hmem
    obtain ⟨c, hc, htc⟩ := (mem_tagIndex _ _).mp hmem
    have hc' := List.mem_filter.mp hc
    have hcid : c.id ≠ b.id := of_decide_eq_true hc'.2
    exact hcid (congrArg Book.id (honly c hc'.1 htc))

/-- C7 witness: deleting the concrete Book with the unique tag `"only-y"`
removes it from the refetched list and drops its orphaned tag from the
refetched index. -/
theorem delete_removes_book_and_orphan_tags_witness :
    bkY ∈ [bkX, bkY]
    ∧ bkY ∉ booksQuery (deleteBook [bkX, bkY] bkY.id) "" "" false
    ∧ "only-y" ∉ tagIndex (deleteBook [bkX, bkY] bkY.id) := by
  have h := delete_removes_book_and_orphan_tags [bkX, bkY] bkY none none none
    "only-y" (by decide)
  have h2 := h.2.1
  have h3 := h.2.2 (by decide) (by decide)
  have he : (jsOr none "asc" == "desc") = false := by decide
  rw [he] at h2
  exact ⟨by decide, h2, h3⟩

theorem POST_store_cases (ok : Bool) (store : List Book) (newId : String) (now : Nat)
    (body : PostBody) :
    (BooksRoute.POST ok store newId now body).2 = store ∨
    ((BooksRoute.POST ok store newId now body).2 = store ++ [mkBook newId now body]
      ∧ jsTruthy body.title = true ∧ jsTruthy body.author = true) := by
  by_cases hv : (jsTruthy body.title && jsTruthy body.author) = true
  · cases ok
    · left
      simp [BooksRoute.POST, hv]
    · right
      exact ⟨by simp [BooksRoute.POST, hv], (Bool.and_eq_true _ _).mp hv⟩
  · left
    have hv' : (jsTruthy body.title && jsTruthy body.author) = false :=
      Bool.eq_false_iff.mpr hv
    simp [BooksRoute.POST, hv']

theorem PUT_store_mem (ok : Bool) (store : List Book) (targetId : String) (now : Nat)
    (body : PostBody) (b : Book)
    (hb : b ∈ (BookIdRoute.PUT ok store targetId now body).2) :
    b ∈ store ∨ (jsTruthy body.title = true ∧ jsTruthy body.author = true
      ∧ b.title = body.title.getD "" ∧ b.author = body.author.getD "") := by
  by_cases hv : (jsTruthy body.title && jsTruthy body.author) = true
  · cases ok with
    | false =>
      left
      simpa [BookIdRoute.PUT, hv] using hb
    | true =>
      cases hfind : store.find? (fun c => c.id == targetId) with
      | none =>
        left
        simpa [BookIdRoute.PUT, hv, hfind] using hb
      | some old =>
        have hb' : b ∈ store.map
            (fun c => if c.id == targetId then replaceBook now body c else c) := by
          simpa [BookIdRoute.PUT, hv, hfind] using hb
        obtain ⟨a, ha, hfa⟩ := List.mem_map.mp hb'
        by_cases hid : (a.id == targetId) = true
        · right
          rw [if_pos hid] at hfa
          have hav := (Bool.and_eq_true _ _).mp hv
          refine ⟨hav.1, hav.2, ?_, ?_⟩
          · rw [← hfa]
            rfl
          · rw [← hfa]
            rfl
        · left
          rw [if_neg hid] at hfa
          rw [← hfa]
          exact ha
  · left
    have hv' : (jsTruthy body.title && jsTruthy body.author) = false :=
      Bool.eq_false_iff.mpr hv
    simpa [BookIdRoute.PUT, hv'] using hb

/-- C4 (amended): every Book in any reachable store state has a non-empty
title string and a non-empty author string — the server checks truthiness
only, so this is non-emptiness before trimming, not after. -/
theorem persisted_title_author_nonempty (s : List Book) (h : Reachable s) :
    ∀ b ∈ s, b.title ≠ "" ∧ b.author ≠ "" := by
  induction h with
  | init =>
    intro b hb
    simp at hb
  | createStep ok s newId now body hs ih =>
    intro b hb
    rcases POST_store_cases ok s newId now body with heq | ⟨heq, ht, ha⟩
    · rw [heq] at hb
      exact ih b hb
    · rw [heq] at hb
      rcases List.mem_append.mp hb with hb' | hb'
      · exact ih b hb'
      · have hbe : b = mkBook newId now body := by simpa using hb'
        subst hbe
        exact ⟨jsTruthy_getD_ne _ ht, jsTruthy_getD_ne _ ha⟩
  | updateStep ok s targetId now body hs ih =>
    intro b hb
    rcases PUT_store_mem ok s targetId now body b hb with hb' | ⟨ht, ha, hbt, hba⟩
    · exact ih b hb'
    · constructor
      · rw [hbt]
        exact jsTruthy_getD_ne _ ht
      · rw [hba]
        exact jsTruthy_getD_ne _ ha
  | deleteStep ok s targetId hs ih =>
    intro b hb
    cases ok with
    | false =>
      exact ih b (by simpa [BookIdRoute.DELETE] using hb)
    | true =>
      have hb' : b ∈ deleteBook s targetId := by
        simpa [BookIdRoute.DELETE] using hb
      exact ih b (List.mem_filter.mp hb').1

/-- C4 witness: the Book created by a concrete well-formed request sits in a
reachable store and has non-empty title and author. -/
theorem persisted_title_author_nonempty_witness :
    (mkBook "b1" 0 sampleBody).title ≠ "" ∧ (mkBook "b1" 0 sampleBody).author ≠ "" := by
  have hr : Reachable [mkBook "b1" 0 sampleBody] := by
    have h := Reachable.createStep true [] "b1" 0 sampleBody Reachable.init
    have he : (BooksRoute.POST true [] "b1" 0 sampleBody).2
        = [mkBook "b1" 0 sampleBody] := by decide
    rwa [he] at h
  exact persisted_title_author_nonempty _ hr _ (by simp)

/-- C4 counterexample: a `POST` whose title is a single space is accepted, so
a reachable store state contains a Book whose title consists only of
whitespace (it trims to the empty string), refuting the claim as stated. -/
theorem whitespace_title_reachable :
    Reachable [mkBook "b1" 0 blankTitleBody]
    ∧ (mkBook "b1" 0 blankTitleBody).title = " "
    ∧ trimL (mkBook "b1" 0 blankTitleBody).title.data = [] := by
  refine ⟨?_, by decide, by decide⟩
  have h := Reachable.createStep true [] "b1" 0 blankTitleBody Reachable.init
  have he : (BooksRoute.POST true [] "b1" 0 blankTitleBody).2
      = [mkBook "b1" 0 blankTitleBody] := by decide
  rwa [he] at h
